import Mathlib

/-!
Shallow embedding of the cart state manager in `src/hooks/useCart.tsx`
(react-cart).  The cart is a list of products; the three operations
`addProduct`, `removeProduct` and `updateProductAmount` validate against a
remote stock service (modelled as an environment of fallible fetch
functions), update the in-memory list and persist a serialized snapshot to
local storage.  Exceptions thrown by the external calls are modelled with
`Option`/`Except`; each operation's own `try`/`catch` turns them into a
toast message, so the operations themselves are total functions.

JavaScript `number` ids and amounts are modelled as `Int` (the code only
ever compares them and adds 1, so integer arithmetic is faithful on the
integer-valued inputs the app uses).  The display attributes of a product
(title, price, image) are never consulted by any cart operation, so
`Product` keeps only the fields the logic reads: `id` and `amount`.
`JSON.stringify`/`JSON.parse` are modelled by a concrete executable
text encoding `encodeCart` with verified decoder `decodeCart`.
-/

/-- A cart line item: product identifier and quantity in the cart
(`amount`).  Mirrors the `Product` type as used by `useCart.tsx`. -/
structure Product where
  id : Int
  amount : Int
deriving Repr, DecidableEq

/-- A stock snapshot from `GET stock/{id}`: identifier and available
quantity. -/
structure Stock where
  id : Int
  amount : Int
deriving Repr, DecidableEq

/-! ### Serialization: the persisted text encoding of a cart

`JSON.stringify` on the cart is modelled as a concrete injective text
encoding: each entry is written `id:amount;` with integers in decimal
(a leading `-` for negatives).  `decodeCart` is its verified inverse;
a string outside its range models text `JSON.parse` cannot read as a
cart. -/

/-- Decimal digits of `n`, least significant first, with explicit fuel so
that the definition is structurally recursive (and hence computes by
`decide`/`rfl`); `natDigitsRev` supplies enough fuel. -/
def natDigitsRevAux : Nat → Nat → List Nat
  | 0, _ => []
  | fuel + 1, n => if n = 0 then [] else n % 10 :: natDigitsRevAux fuel (n / 10)

/-- Decimal digits of `n`, least significant first; `[]` for `0`. -/
def natDigitsRev (n : Nat) : List Nat :=
  natDigitsRevAux n n

/-- Value of a least-significant-first digit list. -/
def valOfRevDigits : List Nat → Nat
  | [] => 0
  | d :: ds => d + 10 * valOfRevDigits ds

/-- The printable character of a single decimal digit. -/
def digitChar (d : Nat) : Char := Char.ofNat (48 + d)

/-- The digit value of a character (inverse of `digitChar` on digits). -/
def charDigit (c : Char) : Nat := c.toNat - 48

/-- Decimal rendering of a natural number, most significant digit
first; `0` renders as `"0"`. -/
def encodeNat (n : Nat) : List Char :=
  if n = 0 then ['0'] else (natDigitsRev n).reverse.map digitChar

/-- Decimal rendering of an integer (sign prefix for negatives). -/
def encodeInt (i : Int) : List Char :=
  if i < 0 then '-' :: encodeNat i.natAbs else encodeNat i.natAbs

/-- Serialized form of one cart entry: `id:amount;`. -/
def encodeProduct (p : Product) : List Char :=
  encodeInt p.id ++ ':' :: (encodeInt p.amount ++ [';'])

/-- Serialized form of a whole cart (concatenation of its entries).
Models `JSON.stringify(cart)`. -/
def encodeCart : List Product → List Char
  | [] => []
  | p :: ps => encodeProduct p ++ encodeCart ps

/-- Numeric value of a most-significant-first digit-character list. -/
def natOfDigitChars (l : List Char) : Nat :=
  l.foldl (fun a c => 10 * a + charDigit c) 0

/-- Reads a nonempty run of decimal digits from the front of `s`,
returning its value and the remaining characters. -/
def readNat (s : List Char) : Option (Nat × List Char) :=
  let ds := s.takeWhile Char.isDigit
  if ds = [] then none else some (natOfDigitChars ds, s.dropWhile Char.isDigit)

/-- Reads an optionally `-`-prefixed decimal integer from the front of
`s`. -/
def readInt : List Char → Option (Int × List Char)
  | [] => none
  | c :: t =>
    if c = '-' then (readNat t).map (fun r => (-(r.1 : Int), r.2))
    else (readNat (c :: t)).map (fun r => ((r.1 : Int), r.2))

/-- Fuel-indexed parser for a serialized cart (the fuel bounds the number
of entries; `decodeCart` supplies enough). -/
def decodeCartAux : Nat → List Char → Option (List Product)
  | _, [] => some []
  | 0, _ :: _ => none
  | fuel + 1, s =>
    match readInt s with
    | none => none
    | some (i, s1) =>
      match s1 with
      | [] => none
      | c1 :: s2 =>
        if c1 = ':' then
          match readInt s2 with
          | none => none
          | some (a, s3) =>
            match s3 with
            | [] => none
            | c2 :: s4 =>
              if c2 = ';' then
                (decodeCartAux fuel s4).map (fun ps => ⟨i, a⟩ :: ps)
              else none
        else none

/-- Decoder for the persisted cart text.  Models `JSON.parse` on the
persisted snapshot: `some` on any text `encodeCart` can produce, `none`
on unreadable text. -/
def decodeCart (s : List Char) : Option (List Product) :=
  decodeCartAux s.length s

theorem natDigitsRevAux_zero (fuel : Nat) : natDigitsRevAux fuel 0 = [] := by
  cases fuel <;> simp [natDigitsRevAux]

theorem natDigitsRevAux_irrel :
    ∀ fuel fuel' n, n ≤ fuel → n ≤ fuel' →
      natDigitsRevAux fuel n = natDigitsRevAux fuel' n := by
  intro fuel
  induction fuel with
  | zero =>
    intro fuel' n h _
    have hn : n = 0 := Nat.le_zero.mp h
    subst hn
    rw [natDigitsRevAux_zero, natDigitsRevAux_zero]
  | succ fuel ih =>
    intro fuel' n h h'
    by_cases hn : n = 0
    · subst hn
      rw [natDigitsRevAux_zero, natDigitsRevAux_zero]
    · cases fuel' with
      | zero => omega
      | succ fuel' =>
        have hdiv : n / 10 < n := Nat.div_lt_self (Nat.pos_of_ne_zero hn) (by decide)
        simp only [natDigitsRevAux, if_neg hn]
        congr 1
        exact ih fuel' (n / 10) (by omega) (by omega)

theorem natDigitsRev_eq (n : Nat) :
    natDigitsRev n = if n = 0 then [] else n % 10 :: natDigitsRev (n / 10) := by
  by_cases hn : n = 0
  · simp [hn, natDigitsRev, natDigitsRevAux_zero]
  · rw [if_neg hn]
    obtain ⟨m, rfl⟩ := Nat.exists_eq_succ_of_ne_zero hn
    have hdiv : (m + 1) / 10 < m + 1 := Nat.div_lt_self (Nat.succ_pos m) (by decide)
    show natDigitsRevAux (m + 1) (m + 1) = _
    rw [natDigitsRevAux, if_neg hn]
    congr 1
    exact natDigitsRevAux_irrel m _ _ (by omega) le_rfl

theorem valOfRevDigits_natDigitsRev (n : Nat) :
    valOfRevDigits (natDigitsRev n) = n := by
  induction n using Nat.strong_induction_on with
  | _ n ih =>
    rw [natDigitsRev_eq]
    by_cases h : n = 0
    · simp [h, valOfRevDigits]
    · have hlt : n / 10 < n := Nat.div_lt_self (Nat.pos_of_ne_zero h) (by decide)
      rw [if_neg h]
      simp only [valOfRevDigits, ih _ hlt]
      omega

theorem natDigitsRev_lt (n : Nat) : ∀ d ∈ natDigitsRev n, d < 10 := by
  induction n using Nat.strong_induction_on with
  | _ n ih =>
    rw [natDigitsRev_eq]
    by_cases h : n = 0
    · simp [h]
    · have hlt : n / 10 < n := Nat.div_lt_self (Nat.pos_of_ne_zero h) (by decide)
      rw [if_neg h]
      simp only [List.mem_cons]
      rintro d (rfl | hd)
      · exact Nat.mod_lt _ (by decide)
      · exact ih _ hlt d hd

theorem charDigit_digitChar {d : Nat} (h : d < 10) :
    charDigit (digitChar d) = d := by
  have key : ∀ e, e < 10 → charDigit (digitChar e) = e := by decide
  exact key d h

theorem digitChar_isDigit {d : Nat} (h : d < 10) :
    (digitChar d).isDigit = true := by
  have key : ∀ e, e < 10 → (digitChar e).isDigit = true := by decide
  exact key d h

theorem foldl_digitChars (ds : List Nat) (h : ∀ d ∈ ds, d < 10) (acc : Nat) :
    List.foldl (fun a c => 10 * a + charDigit c) acc (ds.reverse.map digitChar)
      = acc * 10 ^ ds.length + valOfRevDigits ds := by
  induction ds generalizing acc with
  | nil => simp [valOfRevDigits]
  | cons d ds ih =>
    have hd : d < 10 := h d (List.mem_cons_self d ds)
    have hds : ∀ e ∈ ds, e < 10 := fun e he => h e (List.mem_cons_of_mem d he)
    simp only [List.reverse_cons, List.map_append, List.foldl_append,
      ih hds acc, List.map_cons, List.map_nil, List.foldl_cons, List.foldl_nil,
      charDigit_digitChar hd, valOfRevDigits, List.length_cons]
    ring

theorem natOfDigitChars_encodeNat (n : Nat) :
    natOfDigitChars (encodeNat n) = n := by
  by_cases h : n = 0
  · subst h; decide
  · unfold natOfDigitChars encodeNat
    rw [if_neg h, foldl_digitChars _ (natDigitsRev_lt n)]
    simp [valOfRevDigits_natDigitsRev]

theorem encodeNat_isDigit (n : Nat) : ∀ c ∈ encodeNat n, c.isDigit = true := by
  unfold encodeNat
  by_cases h : n = 0
  · simp only [h, if_true]; decide
  · rw [if_neg h]
    intro c hc
    obtain ⟨d, hd, rfl⟩ := List.mem_map.mp hc
    exact digitChar_isDigit (natDigitsRev_lt n d (List.mem_reverse.mp hd))

theorem encodeNat_ne_nil (n : Nat) : encodeNat n ≠ [] := by
  unfold encodeNat
  by_cases h : n = 0
  · simp [h]
  · rw [if_neg h]
    intro hcontra
    have : natDigitsRev n ≠ [] := by
      rw [natDigitsRev_eq]; simp [h]
    simp only [List.map_eq_nil_iff, List.reverse_eq_nil_iff] at hcontra
    exact this hcontra

theorem takeWhile_all_append {p : Char → Bool} (l : List Char) (c : Char)
    (r : List Char) (hl : ∀ x ∈ l, p x = true) (hc : p c = false) :
    (l ++ c :: r).takeWhile p = l ∧ (l ++ c :: r).dropWhile p = c :: r := by
  induction l with
  | nil => simp [List.takeWhile_cons, List.dropWhile_cons, hc]
  | cons a l ih =>
    have ha : p a = true := hl a (List.mem_cons_self a l)
    have hl' : ∀ x ∈ l, p x = true := fun x hx => hl x (List.mem_cons_of_mem a hx)
    obtain ⟨h1, h2⟩ := ih hl'
    simp [List.takeWhile_cons, List.dropWhile_cons, ha, h1, h2]

theorem readNat_encode (n : Nat) (c : Char) (r : List Char)
    (hc : c.isDigit = false) :
    readNat (encodeNat n ++ c :: r) = some (n, c :: r) := by
  obtain ⟨h1, h2⟩ :=
    takeWhile_all_append (p := Char.isDigit) (encodeNat n) c r
      (encodeNat_isDigit n) hc
  unfold readNat
  simp only [h1, h2]
  rw [if_neg (encodeNat_ne_nil n), natOfDigitChars_encodeNat]

theorem readInt_encode (i : Int) (c : Char) (r : List Char)
    (hc : c.isDigit = false) :
    readInt (encodeInt i ++ c :: r) = some (i, c :: r) := by
  unfold encodeInt
  by_cases h : i < 0
  · rw [if_pos h]
    show readInt ('-' :: (encodeNat i.natAbs ++ c :: r)) = _
    rw [readInt, if_pos rfl, readNat_encode _ _ _ hc]
    have hi : -(i.natAbs : Int) = i := by omega
    simp only [Option.map_some']
    rw [hi]
  · rw [if_neg h]
    obtain ⟨hd, tl, heq⟩ : ∃ hd tl, encodeNat i.natAbs = hd :: tl := by
      cases hh : encodeNat i.natAbs with
      | nil => exact absurd hh (encodeNat_ne_nil _)
      | cons hd tl => exact ⟨hd, tl, rfl⟩
    rw [heq]
    have hdd : hd.isDigit = true := by
      apply encodeNat_isDigit i.natAbs
      rw [heq]; exact List.mem_cons_self hd tl
    have hdne : hd ≠ '-' := by
      intro hcontra; rw [hcontra] at hdd; exact absurd hdd (by decide)
    show readInt (hd :: (tl ++ c :: r)) = _
    rw [readInt, if_neg hdne]
    have : (hd :: tl) ++ c :: r = hd :: (tl ++ c :: r) := rfl
    rw [← this, ← heq, readNat_encode _ _ _ hc]
    have hi : (i.natAbs : Int) = i := by omega
    simp only [Option.map_some']
    rw [hi]

theorem encodeInt_ne_nil (i : Int) : encodeInt i ≠ [] := by
  unfold encodeInt
  by_cases h : i < 0
  · simp [h]
  · simpa [h] using encodeNat_ne_nil i.natAbs

theorem decodeCartAux_succ (fuel : Nat) (s : List Char) (hs : s ≠ []) :
    decodeCartAux (fuel + 1) s =
      match readInt s with
      | none => none
      | some (i, s1) =>
        match s1 with
        | [] => none
        | c1 :: s2 =>
          if c1 = ':' then
            match readInt s2 with
            | none => none
            | some (a, s3) =>
              match s3 with
              | [] => none
              | c2 :: s4 =>
                if c2 = ';' then
                  (decodeCartAux fuel s4).map (fun ps => ⟨i, a⟩ :: ps)
                else none
          else none := by
  cases s with
  | nil => exact absurd rfl hs
  | cons x xs => rfl

theorem decodeCartAux_encodeCart (c : List Product) :
    ∀ fuel, c.length ≤ fuel → decodeCartAux fuel (encodeCart c) = some c := by
  induction c with
  | nil => intro fuel _; cases fuel <;> rfl
  | cons p ps ih =>
    intro fuel hfuel
    cases fuel with
    | zero => simp at hfuel
    | succ f =>
      have hshape : encodeCart (p :: ps)
          = encodeInt p.id ++ ':' :: (encodeInt p.amount ++ ';' :: encodeCart ps) := by
        simp [encodeCart, encodeProduct]
      have hne : encodeCart (p :: ps) ≠ [] := by
        rw [hshape]
        intro hcontra
        exact encodeInt_ne_nil p.id (List.append_eq_nil.mp hcontra).1
      rw [decodeCartAux_succ f _ hne, hshape,
        readInt_encode p.id ':' _ (by decide)]
      dsimp only
      rw [if_pos rfl, readInt_encode p.amount ';' _ (by decide)]
      dsimp only
      rw [if_pos rfl, ih f (by simp only [List.length_cons] at hfuel; omega)]
      rfl

theorem length_le_length_encodeCart (c : List Product) :
    c.length ≤ (encodeCart c).length := by
  induction c with
  | nil => simp [encodeCart]
  | cons p ps ih =>
    have hp : 0 < (encodeProduct p).length := by
      unfold encodeProduct
      simp
    simp only [encodeCart, List.length_append, List.length_cons]
    omega

/-- The decoder inverts the encoder: any persisted snapshot produced by
`encodeCart` is read back as exactly the cart it was written from. -/
theorem decodeCart_encodeCart (c : List Product) :
    decodeCart (encodeCart c) = some c :=
  decodeCartAux_encodeCart c _ (length_le_length_encodeCart c)

/-! ### The cart manager

`useCart.tsx` keeps the cart in React state and talks to three external
collaborators: the product/stock HTTP API (`api.get`), the local
persistence store (`localStorage`) and the toast notification sink.  The
fetches are modelled as functions in an environment `Env`, returning
`none` when the call throws (network/HTTP failure); `persistFails` models
`localStorage.setItem` throwing.  An operation's result is the new cart,
the new persisted text (`storage`) and the list of toast messages it
fired. -/

/-- External collaborators of the cart manager.  `fetchProduct i` models
`api.get("products/" + i)` and `fetchStock i` models
`api.get("stock/" + i)`; `none` means the call threw.  `persistFails`
models `localStorage.setItem` throwing. -/
structure Env where
  fetchProduct : Int → Option Product
  fetchStock : Int → Option Stock
  persistFails : Bool

/-- Observable outcome of one cart operation: the in-memory cart after
the call, the persisted snapshot (`none` = no snapshot ever written), and
the toast messages fired during the call. -/
structure OpResult where
  cart : List Product
  storage : Option String
  toasts : List String
deriving Repr, DecidableEq

/-- `toast.error('Quantidade solicitada fora de estoque')`. -/
def outOfStockMsg : String := "Quantidade solicitada fora de estoque"

/-- `toast.error('Erro na adição do produto')`. -/
def addErrorMsg : String := "Erro na adição do produto"

/-- `toast.error('Erro na remoção do produto')`. -/
def removeErrorMsg : String := "Erro na remoção do produto"

/-- `toast.error('Erro na alteração de quantidade do produto')`. -/
def updateErrorMsg : String := "Erro na alteração de quantidade do produto"

/-- `persistCartOnLocalStorage`: the text written by
`localStorage.setItem('@RocketShoes:cart', JSON.stringify(cart))`. -/
def persistCartOnLocalStorage (cart : List Product) : String :=
  String.mk (encodeCart cart)

/-- `removeProduct` (useCart.tsx lines 51-67): looks the id up with
`find`; if absent, toasts the removal error; otherwise filters the entry
out, sets the new cart and persists it.  The whole body is wrapped in
`try`/`catch` toasting the same removal error; the only throwing call is
`localStorage.setItem`, which runs after `setCart`, so on a persistence
failure the cart keeps the filtered value while storage is unchanged. -/
def removeProduct (env : Env) (cart : List Product) (storage : Option String)
    (productId : Int) : OpResult :=
  match cart.find? (fun item => item.id == productId) with
  | none => ⟨cart, storage, [removeErrorMsg]⟩
  | some _ =>
    let updatedCart := cart.filter (fun item => !(item.id == productId))
    if env.persistFails then ⟨updatedCart, storage, [removeErrorMsg]⟩
    else ⟨updatedCart, some (persistCartOnLocalStorage updatedCart), []⟩

/-- `updateProductAmount` (useCart.tsx lines 69-98): rejects when
`amount <= 0 || productFound === undefined || productFound.amount <= 0`
(one short-circuit disjunction in the source, split into the equivalent
`match`/`if` here), then fetches stock and rejects when
`productFound.amount + amount > stock.amount`; otherwise maps the cart,
replacing the matching entry's amount with `amount`, sets and persists.
The surrounding `try`/`catch` toasts the update error when the stock
fetch or the persistence write throws; the write runs after `setCart`. -/
def updateProductAmount (env : Env) (cart : List Product) (storage : Option String)
    (productId amount : Int) : OpResult :=
  match cart.find? (fun item => item.id == productId) with
  | none => ⟨cart, storage, [updateErrorMsg]⟩
  | some productFound =>
    if amount ≤ 0 ∨ productFound.amount ≤ 0 then ⟨cart, storage, [updateErrorMsg]⟩
    else
      match env.fetchStock productId with
      | none => ⟨cart, storage, [updateErrorMsg]⟩
      | some stock =>
        if productFound.amount + amount > stock.amount then
          ⟨cart, storage, [outOfStockMsg]⟩
        else
          let updatedCart := cart.map (fun item =>
            if item.id == productFound.id then { item with amount := amount } else item)
          if env.persistFails then ⟨updatedCart, storage, [updateErrorMsg]⟩
          else ⟨updatedCart, some (persistCartOnLocalStorage updatedCart), []⟩

/-- `handleAddNewProduct` (useCart.tsx lines 100-120): fetches the
product, then the stock at `data.id`; toasts out-of-stock when
`stock.amount === 0`; otherwise appends `{ ...data, amount: 1 }`, sets
and persists.  It has no `try`/`catch` of its own: a throwing call
propagates to `addProduct`'s handler, so the result is an `Except` whose
error carries the cart/storage state at the throw point. -/
def handleAddNewProduct (env : Env) (cart : List Product) (storage : Option String)
    (productId : Int) : Except (List Product × Option String) OpResult :=
  match env.fetchProduct productId with
  | none => .error (cart, storage)
  | some data =>
    match env.fetchStock data.id with
    | none => .error (cart, storage)
    | some stock =>
      if stock.amount = 0 then .ok ⟨cart, storage, [outOfStockMsg]⟩
      else
        let updatedCart := cart ++ [{ data with amount := 1 }]
        if env.persistFails then .error (updatedCart, storage)
        else .ok ⟨updatedCart, some (persistCartOnLocalStorage updatedCart), []⟩

/-- `handleUpdateAmountOnExistingProduct` (useCart.tsx lines 122-137):
fetches stock for the entry already in the cart; toasts out-of-stock when
`productFound.amount + 1 > stock.amount`; otherwise maps the cart,
bumping the matching entry's amount by one (`++item.amount`), sets and
persists.  Like `handleAddNewProduct`, throwing calls propagate to
`addProduct`'s handler. -/
def handleUpdateAmountOnExistingProduct (env : Env) (cart : List Product)
    (storage : Option String) (productFound : Product) :
    Except (List Product × Option String) OpResult :=
  match env.fetchStock productFound.id with
  | none => .error (cart, storage)
  | some stock =>
    if productFound.amount + 1 > stock.amount then
      .ok ⟨cart, storage, [outOfStockMsg]⟩
    else
      let updatedCart := cart.map (fun item =>
        if item.id == productFound.id then { item with amount := item.amount + 1 }
        else item)
      if env.persistFails then .error (updatedCart, storage)
      else .ok ⟨updatedCart, some (persistCartOnLocalStorage updatedCart), []⟩

/-- `addProduct` (useCart.tsx lines 35-49): dispatches on whether the id
is already in the cart, delegating to the two handlers above; its
`catch` turns any exception they let through into the addition-error
toast, keeping whatever state was already committed. -/
def addProduct (env : Env) (cart : List Product) (storage : Option String)
    (productId : Int) : OpResult :=
  let attempt :=
    match cart.find? (fun item => item.id == productId) with
    | none => handleAddNewProduct env cart storage productId
    | some productFound =>
      handleUpdateAmountOnExistingProduct env cart storage productFound
  match attempt with
  | .ok res => res
  | .error (c, s) => ⟨c, s, [addErrorMsg]⟩

/-- Initialization of the provider state (useCart.tsx lines 25-33):
reads `localStorage.getItem('@RocketShoes:cart')`; a missing value
(`null`) or the JavaScript-falsy empty string yields the empty cart;
otherwise the text is parsed by `JSON.parse` with no `try`/`catch`, so an
unreadable text makes the initializer throw (`.error ()`). -/
def initCart (storagedCart : Option String) : Except Unit (List Product) :=
  match storagedCart with
  | none => .ok []
  | some s =>
    if s = "" then .ok []
    else
      match decodeCart s.data with
      | some cart => .ok cart
      | none => .error ()

/-- The data-model uniqueness invariant: no two cart entries share a
product identifier. -/
def CartUniq (cart : List Product) : Prop :=
  cart.Pairwise (fun a b => a.id ≠ b.id)

/-- The data-model quantity invariant: every entry's quantity is ≥ 1. -/
def CartPos (cart : List Product) : Prop :=
  ∀ p ∈ cart, 1 ≤ p.amount

instance : DecidablePred CartUniq := fun cart =>
  inferInstanceAs (Decidable (cart.Pairwise _))

instance : DecidablePred CartPos := fun cart =>
  inferInstanceAs (Decidable (∀ p ∈ cart, 1 ≤ p.amount))

/-! ### Shared helper lemmas -/

theorem find?_decomp {α : Type} {p : α → Bool} {l : List α} {a : α}
    (h : l.find? p = some a) :
    ∃ l1 l2, l = l1 ++ a :: l2 ∧ ∀ x ∈ l1, p x = false := by
  induction l with
  | nil => simp [List.find?] at h
  | cons b l ih =>
    rw [List.find?_cons] at h
    cases hb : p b with
    | true =>
      rw [hb] at h
      obtain rfl : b = a := by injection h
      exact ⟨[], l, rfl, by simp⟩
    | false =>
      rw [hb] at h
      obtain ⟨l1, l2, rfl, hl1⟩ := ih h
      refine ⟨b :: l1, l2, rfl, ?_⟩
      intro x hx
      rcases List.mem_cons.mp hx with rfl | hx
      · exact hb
      · exact hl1 x hx

theorem encodeProduct_ne_nil (p : Product) : encodeProduct p ≠ [] := by
  unfold encodeProduct
  intro h
  obtain ⟨-, h2⟩ := List.append_eq_nil.mp h
  exact List.cons_ne_nil _ _ h2

theorem encodeCart_eq_nil {c : List Product} (h : encodeCart c = []) : c = [] := by
  cases c with
  | nil => rfl
  | cons p ps =>
    rw [encodeCart] at h
    exact absurd (List.append_eq_nil.mp h).1 (encodeProduct_ne_nil p)

/-- A persisted snapshot always decodes back to the cart it was written
from. -/
theorem decode_persist (c : List Product) :
    decodeCart (persistCartOnLocalStorage c).data = some c :=
  decodeCart_encodeCart c

theorem persist_ne_empty {c : List Product} (h : c ≠ []) :
    persistCartOnLocalStorage c ≠ "" := by
  intro hcontra
  apply h
  apply encodeCart_eq_nil
  have : (persistCartOnLocalStorage c).data = ("" : String).data := by rw [hcontra]
  exact this

/-! ### The claims -/

/-- C6: `updateProductAmount` with `amount ≤ 0`, with no entry matching
`productId`, or with a matching entry whose recorded quantity is ≤ 0,
leaves cart and storage unchanged and fires only the invalid-quantity
toast. -/
theorem C6_update_rejects_invalid (env : Env) (cart : List Product)
    (storage : Option String) (productId amount : Int)
    (h : amount ≤ 0 ∨ cart.find? (fun item => item.id == productId) = none ∨
      ∃ pf, cart.find? (fun item => item.id == productId) = some pf ∧ pf.amount ≤ 0) :
    updateProductAmount env cart storage productId amount
      = ⟨cart, storage, [updateErrorMsg]⟩ := by
  unfold updateProductAmount
  rcases h with h | h | ⟨pf, hpf, hle⟩
  · cases hfind : cart.find? (fun item => item.id == productId) with
    | none => rfl
    | some pf =>
      dsimp only
      rw [if_pos (Or.inl h)]
  · rw [h]
  · rw [hpf]
    dsimp only
    rw [if_pos (Or.inr hle)]

theorem C6_witness :
    updateProductAmount ⟨fun _ => none, fun _ => none, false⟩ [] none 1 0
      = ⟨[], none, [updateErrorMsg]⟩ :=
  C6_update_rejects_invalid ⟨fun _ => none, fun _ => none, false⟩ [] none 1 0
    (Or.inl (by decide))

/-- Unfolding of `addProduct` along the new-product path (id absent from
the cart, both fetches succeed, persistence succeeds): the result only
depends on whether the fetched stock amount is exactly zero. -/
theorem addProduct_new_product (env : Env) (cart : List Product)
    (storage : Option String) (productId : Int) (data : Product) (stock : Stock)
    (hfind : cart.find? (fun item => item.id == productId) = none)
    (hprod : env.fetchProduct productId = some data)
    (hstock : env.fetchStock data.id = some stock)
    (hpersist : env.persistFails = false) :
    addProduct env cart storage productId =
      if stock.amount = 0 then ⟨cart, storage, [outOfStockMsg]⟩
      else ⟨cart ++ [{ data with amount := 1 }],
        some (persistCartOnLocalStorage (cart ++ [{ data with amount := 1 }])), []⟩ := by
  unfold addProduct handleAddNewProduct
  rw [hfind]
  dsimp only
  rw [hprod]
  dsimp only
  rw [hstock]
  dsimp only
  by_cases h0 : stock.amount = 0
  · rw [if_pos h0, if_pos h0]
  · rw [if_neg h0, if_neg h0, hpersist]
    rfl

/-- C10: on the new-product path the out-of-stock rejection fires exactly
when the fetched stock amount is 0; a negative stock amount nevertheless
appends the product with quantity 1. -/
theorem C10_zero_stock_boundary (env : Env) (cart : List Product)
    (storage : Option String) (productId : Int) (data : Product) (stock : Stock)
    (hfind : cart.find? (fun item => item.id == productId) = none)
    (hprod : env.fetchProduct productId = some data)
    (hstock : env.fetchStock data.id = some stock)
    (hpersist : env.persistFails = false) :
    ((addProduct env cart storage productId).toasts = [outOfStockMsg] ↔
      stock.amount = 0) ∧
    (stock.amount < 0 →
      (addProduct env cart storage productId).cart
        = cart ++ [{ data with amount := 1 }]) := by
  rw [addProduct_new_product env cart storage productId data stock hfind hprod
    hstock hpersist]
  by_cases h0 : stock.amount = 0
  · rw [if_pos h0]
    exact ⟨by simp [h0], fun hneg => absurd h0 (by omega)⟩
  · rw [if_neg h0]
    exact ⟨by simp [h0], fun _ => rfl⟩

theorem C10_witness :
    (addProduct ⟨fun i => some ⟨i, 1⟩, fun i => some ⟨i, -3⟩, false⟩ [] none 2).cart
      = [] ++ [{ (⟨2, 1⟩ : Product) with amount := 1 }] :=
  (C10_zero_stock_boundary ⟨fun i => some ⟨i, 1⟩, fun i => some ⟨i, -3⟩, false⟩
    [] none 2 ⟨2, 1⟩ ⟨2, -3⟩ rfl rfl rfl rfl).2 (by decide)

/-- C4: adding a product absent from the cart appends exactly one new
entry with that id and quantity 1, leaving the pre-existing entries
unchanged and in order, when the reported stock is positive; with
reported stock 0 the cart and storage are unchanged and the out-of-stock
toast fires. -/
theorem C4_add_new_product (env : Env) (cart : List Product)
    (storage : Option String) (productId : Int) (data : Product) (stock : Stock)
    (hfind : cart.find? (fun item => item.id == productId) = none)
    (hprod : env.fetchProduct productId = some data)
    (hid : data.id = productId)
    (hstock : env.fetchStock productId = some stock)
    (hpersist : env.persistFails = false) :
    (0 < stock.amount →
      (addProduct env cart storage productId).cart = cart ++ [⟨productId, 1⟩] ∧
      (addProduct env cart storage productId).toasts = []) ∧
    (stock.amount = 0 →
      addProduct env cart storage productId = ⟨cart, storage, [outOfStockMsg]⟩) := by
  have hstock' : env.fetchStock data.id = some stock := by rw [hid]; exact hstock
  rw [addProduct_new_product env cart storage productId data stock hfind hprod
    hstock' hpersist]
  constructor
  · intro hpos
    rw [if_neg (by omega)]
    exact ⟨by simp [hid], rfl⟩
  · intro h0
    rw [if_pos h0]

theorem C4_witness :
    (addProduct ⟨fun i => some ⟨i, 1⟩, fun i => some ⟨i, 9⟩, false⟩
        [⟨5, 2⟩] none 2).cart = [⟨5, 2⟩] ++ [⟨2, 1⟩] ∧
    addProduct ⟨fun i => some ⟨i, 1⟩, fun i => some ⟨i, 0⟩, false⟩ [⟨5, 2⟩] none 2
      = ⟨[⟨5, 2⟩], none, [outOfStockMsg]⟩ :=
  ⟨((C4_add_new_product ⟨fun i => some ⟨i, 1⟩, fun i => some ⟨i, 9⟩, false⟩
      [⟨5, 2⟩] none 2 ⟨2, 1⟩ ⟨2, 9⟩ (by decide) rfl rfl rfl rfl).1 (by decide)).1,
   (C4_add_new_product ⟨fun i => some ⟨i, 1⟩, fun i => some ⟨i, 0⟩, false⟩
      [⟨5, 2⟩] none 2 ⟨2, 1⟩ ⟨2, 0⟩ (by decide) rfl rfl rfl rfl).2 rfl⟩

theorem uniq_tail_ids {l1 l2 : List Product} {pf : Product}
    (huniq : CartUniq (l1 ++ pf :: l2)) :
    ∀ x ∈ l2, (x.id == pf.id) = false := by
  unfold CartUniq at huniq
  rw [List.pairwise_append] at huniq
  have hpf := (List.pairwise_cons.mp huniq.2.1).1
  intro x hx
  exact beq_eq_false_iff_ne.mpr (Ne.symm (hpf x hx))

theorem filter_remove_entry (l1 l2 : List Product) (pf : Product) (pid : Int)
    (hpf : (pf.id == pid) = true)
    (hl1 : ∀ x ∈ l1, (x.id == pid) = false)
    (hl2 : ∀ x ∈ l2, (x.id == pid) = false) :
    (l1 ++ pf :: l2).filter (fun item => !(item.id == pid)) = l1 ++ l2 := by
  rw [List.filter_append]
  congr 1
  · apply List.filter_eq_self.mpr
    intro a ha
    rw [hl1 a ha]
    rfl
  · rw [List.filter_cons, hpf]
    simp only [Bool.not_true, if_neg]
    apply List.filter_eq_self.mpr
    intro a ha
    rw [hl2 a ha]
    rfl

theorem map_update_entry (l1 l2 : List Product) (pf : Product) (pid : Int)
    (u : Product → Product)
    (hpf : (pf.id == pid) = true)
    (hl1 : ∀ x ∈ l1, (x.id == pid) = false)
    (hl2 : ∀ x ∈ l2, (x.id == pid) = false) :
    (l1 ++ pf :: l2).map (fun item => if item.id == pid then u item else item)
      = l1 ++ u pf :: l2 := by
  rw [List.map_append, List.map_cons]
  congr 1
  · refine (List.map_congr_left ?_).trans (List.map_id l1)
    intro x hx
    rw [hl1 x hx]
    rfl
  · rw [if_pos hpf]
    congr 1
    refine (List.map_congr_left ?_).trans (List.map_id l2)
    intro x hx
    rw [hl2 x hx]
    rfl

/-- C1 counterexample: with cart `[{id 1, amount 2}]` and `stock(1) = 5`,
the claim predicts `updateProductAmount(1, 4)` yields `[{id 1, amount 4}]`
(4 ≤ 5); the code compares existing + requested (2 + 4 = 6 > 5) and
leaves the cart unchanged, firing the out-of-stock toast instead. -/
theorem C1_counterexample :
    (updateProductAmount ⟨fun _ => none, fun i => some ⟨i, 5⟩, false⟩
        [⟨1, 2⟩] none 1 4).cart ≠ [⟨1, 4⟩] ∧
    updateProductAmount ⟨fun _ => none, fun i => some ⟨i, 5⟩, false⟩
        [⟨1, 2⟩] none 1 4 = ⟨[⟨1, 2⟩], none, [outOfStockMsg]⟩ := by
  decide

/-- C1 (amended): `updateProductAmount` on an entry present in the cart
(with positive requested amount and positive existing quantity) rejects
— cart and storage unchanged, out-of-stock toast — when the *existing
quantity plus the requested amount* exceeds the available stock, and
otherwise replaces the entry's quantity with exactly `amount` (an
absolute set, not an increment). -/
theorem C1_update_set_or_reject (env : Env) (cart : List Product)
    (storage : Option String) (productId amount : Int) (pf : Product)
    (stock : Stock)
    (hfind : cart.find? (fun item => item.id == productId) = some pf)
    (hamt : 0 < amount) (hpfpos : 0 < pf.amount)
    (hstock : env.fetchStock productId = some stock)
    (hpersist : env.persistFails = false) :
    (stock.amount < pf.amount + amount →
      updateProductAmount env cart storage productId amount
        = ⟨cart, storage, [outOfStockMsg]⟩) ∧
    (pf.amount + amount ≤ stock.amount →
      updateProductAmount env cart storage productId amount
        = ⟨cart.map (fun item =>
              if item.id == pf.id then { item with amount := amount } else item),
            some (persistCartOnLocalStorage (cart.map (fun item =>
              if item.id == pf.id then { item with amount := amount } else item))),
            []⟩) := by
  unfold updateProductAmount
  rw [hfind]
  dsimp only
  rw [if_neg (by omega), hstock]
  dsimp only
  constructor
  · intro hover
    rw [if_pos (by omega)]
  · intro hle
    rw [if_neg (by omega), hpersist]
    rfl

theorem C1_witness :
    updateProductAmount ⟨fun _ => none, fun i => some ⟨i, 5⟩, false⟩
        [⟨1, 2⟩] none 1 6 = ⟨[⟨1, 2⟩], none, [outOfStockMsg]⟩ ∧
    updateProductAmount ⟨fun _ => none, fun i => some ⟨i, 5⟩, false⟩
        [⟨1, 2⟩] none 1 3
      = ⟨[⟨1, 3⟩], some (persistCartOnLocalStorage [⟨1, 3⟩]), []⟩ := by
  constructor
  · exact (C1_update_set_or_reject ⟨fun _ => none, fun i => some ⟨i, 5⟩, false⟩
      [⟨1, 2⟩] none 1 6 ⟨1, 2⟩ ⟨1, 5⟩ rfl (by decide) (by decide) rfl rfl).1
      (by decide)
  · have h := (C1_update_set_or_reject ⟨fun _ => none, fun i => some ⟨i, 5⟩, false⟩
      [⟨1, 2⟩] none 1 3 ⟨1, 2⟩ ⟨1, 5⟩ rfl (by decide) (by decide) rfl rfl).2
      (by decide)
    exact h.trans (by decide)

/-- C5: `removeProduct` on a cart whose entries have pairwise-distinct
ids removes exactly the matching entry, keeping the remaining entries
unchanged and in order, and persists the result; with no matching entry
the cart and storage are unchanged and the not-found toast fires. -/
theorem C5_remove_product (env : Env) (cart : List Product)
    (storage : Option String) (productId : Int)
    (huniq : CartUniq cart)
    (hpersist : env.persistFails = false) :
    (∀ pf, cart.find? (fun item => item.id == productId) = some pf →
      ∃ l1 l2, cart = l1 ++ pf :: l2 ∧
        removeProduct env cart storage productId
          = ⟨l1 ++ l2, some (persistCartOnLocalStorage (l1 ++ l2)), []⟩) ∧
    (cart.find? (fun item => item.id == productId) = none →
      removeProduct env cart storage productId
        = ⟨cart, storage, [removeErrorMsg]⟩) := by
  constructor
  · intro pf hfind
    have hpfid : (pf.id == productId) = true :=
      @List.find?_some Product (fun item => item.id == productId) pf cart hfind
    obtain ⟨l1, l2, hdec, hl1⟩ := find?_decomp hfind
    refine ⟨l1, l2, hdec, ?_⟩
    have hl2 : ∀ x ∈ l2, (x.id == productId) = false := by
      intro x hx
      have := uniq_tail_ids (hdec ▸ huniq) x hx
      rwa [eq_of_beq hpfid] at this
    have hfilter : cart.filter (fun item => !(item.id == productId)) = l1 ++ l2 := by
      rw [hdec]
      exact filter_remove_entry l1 l2 pf productId hpfid hl1 hl2
    unfold removeProduct
    rw [hfind]
    dsimp only
    rw [hfilter, hpersist]
    rfl
  · intro hnone
    unfold removeProduct
    rw [hnone]

theorem C5_witness :
    (∃ l1 l2, ([⟨1, 2⟩, ⟨4, 1⟩] : List Product) = l1 ++ (⟨4, 1⟩ : Product) :: l2 ∧
      removeProduct ⟨fun _ => none, fun _ => none, false⟩ [⟨1, 2⟩, ⟨4, 1⟩] none 4
        = ⟨l1 ++ l2, some (persistCartOnLocalStorage (l1 ++ l2)), []⟩) ∧
    removeProduct ⟨fun _ => none, fun _ => none, false⟩ [⟨1, 2⟩, ⟨4, 1⟩] none 9
      = ⟨[⟨1, 2⟩, ⟨4, 1⟩], none, [removeErrorMsg]⟩ :=
  ⟨(C5_remove_product ⟨fun _ => none, fun _ => none, false⟩ [⟨1, 2⟩, ⟨4, 1⟩]
      none 4 (by decide) rfl).1 ⟨4, 1⟩ rfl,
   (C5_remove_product ⟨fun _ => none, fun _ => none, false⟩ [⟨1, 2⟩, ⟨4, 1⟩]
      none 9 (by decide) rfl).2 rfl⟩

/-- C3: `addProduct` on a product already in the cart (entries having
pairwise-distinct ids) increments exactly that entry's quantity by 1 when
current quantity + 1 ≤ available stock — all other entries unchanged and
in order — and otherwise leaves cart and storage unchanged, firing the
out-of-stock toast. -/
theorem C3_add_existing_product (env : Env) (cart : List Product)
    (storage : Option String) (productId : Int) (pf : Product) (stock : Stock)
    (huniq : CartUniq cart)
    (hfind : cart.find? (fun item => item.id == productId) = some pf)
    (hstock : env.fetchStock pf.id = some stock)
    (hpersist : env.persistFails = false) :
    (stock.amount < pf.amount + 1 →
      addProduct env cart storage productId = ⟨cart, storage, [outOfStockMsg]⟩) ∧
    (pf.amount + 1 ≤ stock.amount →
      ∃ l1 l2, cart = l1 ++ pf :: l2 ∧
        addProduct env cart storage productId
          = ⟨l1 ++ { pf with amount := pf.amount + 1 } :: l2,
              some (persistCartOnLocalStorage
                (l1 ++ { pf with amount := pf.amount + 1 } :: l2)), []⟩) := by
  have hpfid : (pf.id == productId) = true :=
    @List.find?_some Product (fun item => item.id == productId) pf cart hfind
  unfold addProduct handleUpdateAmountOnExistingProduct
  rw [hfind]
  dsimp only
  rw [hstock]
  dsimp only
  constructor
  · intro hover
    rw [if_pos (by omega)]
  · intro hle
    rw [if_neg (by omega)]
    obtain ⟨l1, l2, hdec, hl1⟩ := find?_decomp hfind
    have hl1' : ∀ x ∈ l1, (x.id == pf.id) = false := by
      intro x hx
      rw [eq_of_beq hpfid]
      exact hl1 x hx
    have hl2 : ∀ x ∈ l2, (x.id == pf.id) = false := uniq_tail_ids (hdec ▸ huniq)
    have hmap : cart.map (fun item =>
        if item.id == pf.id then { item with amount := item.amount + 1 } else item)
        = l1 ++ { pf with amount := pf.amount + 1 } :: l2 := by
      rw [hdec]
      exact map_update_entry l1 l2 pf pf.id
        (fun item => { item with amount := item.amount + 1 }) (by simp) hl1' hl2
    refine ⟨l1, l2, hdec, ?_⟩
    dsimp only
    rw [hmap, hpersist]
    rfl

theorem C3_witness :
    addProduct ⟨fun _ => none, fun i => some ⟨i, 1⟩, false⟩ [⟨7, 1⟩] none 7
      = ⟨[⟨7, 1⟩], none, [outOfStockMsg]⟩ ∧
    (∃ l1 l2, ([⟨7, 1⟩] : List Product) = l1 ++ (⟨7, 1⟩ : Product) :: l2 ∧
      addProduct ⟨fun _ => none, fun i => some ⟨i, 2⟩, false⟩ [⟨7, 1⟩] none 7
        = ⟨l1 ++ (⟨7, 2⟩ : Product) :: l2,
            some (persistCartOnLocalStorage (l1 ++ (⟨7, 2⟩ : Product) :: l2)),
            []⟩) :=
  ⟨(C3_add_existing_product ⟨fun _ => none, fun i => some ⟨i, 1⟩, false⟩
      [⟨7, 1⟩] none 7 ⟨7, 1⟩ ⟨7, 1⟩ (by decide) rfl rfl rfl).1 (by decide),
   (C3_add_existing_product ⟨fun _ => none, fun i => some ⟨i, 2⟩, false⟩
      [⟨7, 1⟩] none 7 ⟨7, 1⟩ ⟨7, 2⟩ (by decide) rfl rfl rfl).2 (by decide)⟩

/-- C2 counterexample: with an unreadable persisted text the initializer
does not fall back to the empty cart — the `JSON.parse` call sits in the
`useState` initializer with no `try`/`catch`, so initialization throws. -/
theorem C2_counterexample :
    initCart (some (String.mk ['x'])) = .error () := rfl

/-- C2 (amended): initialization loads a readable persisted cart, starts
empty when no persisted value exists (or the persisted text is the
JavaScript-falsy empty string), but *throws* on a nonempty unreadable
persisted text instead of falling back to the empty cart. -/
theorem C2_init_load_or_throw :
    (initCart none = .ok []) ∧
    (∀ c : List Product,
      initCart (some (persistCartOnLocalStorage c)) = .ok c) ∧
    (∀ s : String, s ≠ "" → decodeCart s.data = none →
      initCart (some s) = .error ()) := by
  refine ⟨rfl, ?_, ?_⟩
  · intro c
    by_cases hc : c = []
    · subst hc
      rfl
    · unfold initCart
      dsimp only
      rw [if_neg (persist_ne_empty hc), decode_persist c]
  · intro s hs hdec
    unfold initCart
    dsimp only
    rw [if_neg hs, hdec]

theorem C2_witness :
    initCart (some (persistCartOnLocalStorage [⟨1, 2⟩])) = .ok [⟨1, 2⟩] ∧
    initCart (some (String.mk ['?'])) = .error () :=
  ⟨C2_init_load_or_throw.2.1 [⟨1, 2⟩],
   C2_init_load_or_throw.2.2 (String.mk ['?']) (by decide) (by decide)⟩

theorem removeProduct_success_persist (env : Env) (cart : List Product)
    (storage : Option String) (productId : Int) :
    (removeProduct env cart storage productId).toasts = [] →
      (removeProduct env cart storage productId).storage
        = some (persistCartOnLocalStorage
            (removeProduct env cart storage productId).cart) := by
  unfold removeProduct
  split
  · intro h
    simp at h
  · dsimp only
    split
    · intro h
      simp at h
    · intro _
      rfl

theorem updateProductAmount_success_persist (env : Env) (cart : List Product)
    (storage : Option String) (productId amount : Int) :
    (updateProductAmount env cart storage productId amount).toasts = [] →
      (updateProductAmount env cart storage productId amount).storage
        = some (persistCartOnLocalStorage
            (updateProductAmount env cart storage productId amount).cart) := by
  unfold updateProductAmount
  split
  · intro h
    simp at h
  · split
    · intro h
      simp at h
    · split
      · intro h
        simp at h
      · split
        · intro h
          simp at h
        · dsimp only
          split
          · intro h
            simp at h
          · intro _
            rfl

theorem handleAddNewProduct_ok (env : Env) (cart : List Product)
    (storage : Option String) (productId : Int) (r : OpResult)
    (h : handleAddNewProduct env cart storage productId = .ok r) :
    r.toasts = [] → r.storage = some (persistCartOnLocalStorage r.cart) := by
  unfold handleAddNewProduct at h
  revert h
  split
  · intro h
    cases h
  · split
    · intro h
      cases h
    · split
      · intro h
        injection h with h
        subst h
        intro htoast
        simp at htoast
      · dsimp only
        split
        · intro h
          cases h
        · intro h
          injection h with h
          subst h
          intro _
          rfl

theorem handleUpdateOnExisting_ok (env : Env) (cart : List Product)
    (storage : Option String) (pf : Product) (r : OpResult)
    (h : handleUpdateAmountOnExistingProduct env cart storage pf = .ok r) :
    r.toasts = [] → r.storage = some (persistCartOnLocalStorage r.cart) := by
  unfold handleUpdateAmountOnExistingProduct at h
  revert h
  split
  · intro h
    cases h
  · split
    · intro h
      injection h with h
      subst h
      intro htoast
      simp at htoast
    · dsimp only
      split
      · intro h
        cases h
      · intro h
        injection h with h
        subst h
        intro _
        rfl

theorem addProduct_success_persist (env : Env) (cart : List Product)
    (storage : Option String) (productId : Int) :
    (addProduct env cart storage productId).toasts = [] →
      (addProduct env cart storage productId).storage
        = some (persistCartOnLocalStorage
            (addProduct env cart storage productId).cart) := by
  unfold addProduct
  dsimp only
  cases hfind : cart.find? (fun item => item.id == productId) with
  | none =>
    dsimp only
    cases hh : handleAddNewProduct env cart storage productId with
    | error e =>
      obtain ⟨c, s⟩ := e
      intro h
      simp at h
    | ok r => exact handleAddNewProduct_ok env cart storage productId r hh
  | some pf =>
    dsimp only
    cases hh : handleUpdateAmountOnExistingProduct env cart storage pf with
    | error e =>
      obtain ⟨c, s⟩ := e
      intro h
      simp at h
    | ok r => exact handleUpdateOnExisting_ok env cart storage pf r hh

/-- C7: after every successful mutation (no toast fired) by any of the
three operations, a persisted snapshot exists and decodes back to exactly
the new in-memory cart. -/
theorem C7_persist_mirrors_cart (env : Env) (cart : List Product)
    (storage : Option String) (productId amount : Int) :
    ((addProduct env cart storage productId).toasts = [] →
      ∃ s, (addProduct env cart storage productId).storage = some s ∧
        decodeCart s.data = some (addProduct env cart storage productId).cart) ∧
    ((removeProduct env cart storage productId).toasts = [] →
      ∃ s, (removeProduct env cart storage productId).storage = some s ∧
        decodeCart s.data = some (removeProduct env cart storage productId).cart) ∧
    ((updateProductAmount env cart storage productId amount).toasts = [] →
      ∃ s, (updateProductAmount env cart storage productId amount).storage = some s ∧
        decodeCart s.data
          = some (updateProductAmount env cart storage productId amount).cart) :=
  ⟨fun h => ⟨_, addProduct_success_persist env cart storage productId h,
      decode_persist _⟩,
   fun h => ⟨_, removeProduct_success_persist env cart storage productId h,
      decode_persist _⟩,
   fun h => ⟨_, updateProductAmount_success_persist env cart storage productId
      amount h, decode_persist _⟩⟩

theorem C7_witness :
    ∃ s, (removeProduct ⟨fun _ => none, fun _ => none, false⟩
        [⟨3, 1⟩] none 3).storage = some s ∧
      decodeCart s.data = some (removeProduct ⟨fun _ => none, fun _ => none, false⟩
        [⟨3, 1⟩] none 3).cart :=
  (C7_persist_mirrors_cart ⟨fun _ => none, fun _ => none, false⟩
    [⟨3, 1⟩] none 3 1).2.1 rfl

theorem addProduct_newFetchFail (env : Env) (cart : List Product)
    (storage : Option String) (productId : Int)
    (hfind : cart.find? (fun item => item.id == productId) = none)
    (hprod : env.fetchProduct productId = none) :
    addProduct env cart storage productId = ⟨cart, storage, [addErrorMsg]⟩ := by
  unfold addProduct handleAddNewProduct
  rw [hfind]
  dsimp only
  rw [hprod]

theorem addProduct_newStockFail (env : Env) (cart : List Product)
    (storage : Option String) (productId : Int) (data : Product)
    (hfind : cart.find? (fun item => item.id == productId) = none)
    (hprod : env.fetchProduct productId = some data)
    (hstock : env.fetchStock data.id = none) :
    addProduct env cart storage productId = ⟨cart, storage, [addErrorMsg]⟩ := by
  unfold addProduct handleAddNewProduct
  rw [hfind]
  dsimp only
  rw [hprod]
  dsimp only
  rw [hstock]

theorem addProduct_existStockFail (env : Env) (cart : List Product)
    (storage : Option String) (productId : Int) (pf : Product)
    (hfind : cart.find? (fun item => item.id == productId) = some pf)
    (hstock : env.fetchStock pf.id = none) :
    addProduct env cart storage productId = ⟨cart, storage, [addErrorMsg]⟩ := by
  unfold addProduct handleUpdateAmountOnExistingProduct
  rw [hfind]
  dsimp only
  rw [hstock]

theorem updateProductAmount_stockFail (env : Env) (cart : List Product)
    (storage : Option String) (productId amount : Int)
    (h : env.fetchStock productId = none) :
    (updateProductAmount env cart storage productId amount).cart = cart ∧
    (updateProductAmount env cart storage productId amount).storage = storage ∧
    (updateProductAmount env cart storage productId amount).toasts ≠ [] := by
  unfold updateProductAmount
  split
  · exact ⟨rfl, rfl, by simp⟩
  · split
    · exact ⟨rfl, rfl, by simp⟩
    · rw [h]
      exact ⟨rfl, rfl, by simp⟩

theorem removeProduct_persistFail (env : Env) (cart : List Product)
    (storage : Option String) (productId : Int)
    (h : env.persistFails = true) :
    (removeProduct env cart storage productId).storage = storage ∧
    (removeProduct env cart storage productId).toasts ≠ [] := by
  unfold removeProduct
  split
  · exact ⟨rfl, by simp⟩
  · dsimp only
    rw [if_pos h]
    exact ⟨rfl, by simp⟩

theorem updateProductAmount_persistFail (env : Env) (cart : List Product)
    (storage : Option String) (productId amount : Int)
    (h : env.persistFails = true) :
    (updateProductAmount env cart storage productId amount).storage = storage ∧
    (updateProductAmount env cart storage productId amount).toasts ≠ [] := by
  unfold updateProductAmount
  split
  · exact ⟨rfl, by simp⟩
  · split
    · exact ⟨rfl, by simp⟩
    · split
      · exact ⟨rfl, by simp⟩
      · split
        · exact ⟨rfl, by simp⟩
        · exact ⟨rfl, by simp⟩

theorem addProduct_persistFail (env : Env) (cart : List Product)
    (storage : Option String) (productId : Int)
    (h : env.persistFails = true) :
    (addProduct env cart storage productId).storage = storage ∧
    (addProduct env cart storage productId).toasts ≠ [] := by
  unfold addProduct
  dsimp only
  cases hfind : cart.find? (fun item => item.id == productId) with
  | none =>
    dsimp only
    unfold handleAddNewProduct
    cases hp : env.fetchProduct productId with
    | none => exact ⟨rfl, by simp⟩
    | some data =>
      dsimp only
      cases hs : env.fetchStock data.id with
      | none => exact ⟨rfl, by simp⟩
      | some stock =>
        dsimp only
        by_cases h0 : stock.amount = 0
        · rw [if_pos h0]
          exact ⟨rfl, by simp⟩
        · rw [if_neg h0, if_pos h]
          exact ⟨rfl, by simp⟩
  | some pf =>
    dsimp only
    unfold handleUpdateAmountOnExistingProduct
    cases hs : env.fetchStock pf.id with
    | none => exact ⟨rfl, by simp⟩
    | some stock =>
      dsimp only
      by_cases hover : pf.amount + 1 > stock.amount
      · rw [if_pos hover]
        exact ⟨rfl, by simp⟩
      · rw [if_neg hover, if_pos h]
        exact ⟨rfl, by simp⟩

/-- C8 counterexample: a failing persistence write is an external-call
failure, yet the in-memory cart does *not* stay unchanged — `setCart` runs
before `localStorage.setItem`, so the removal below keeps the filtered
cart while the failure toast fires. -/
theorem C8_counterexample :
    (removeProduct ⟨fun i => some ⟨i, 1⟩, fun i => some ⟨i, 5⟩, true⟩
        [⟨1, 2⟩] none 1).cart ≠ [⟨1, 2⟩] ∧
    (removeProduct ⟨fun i => some ⟨i, 1⟩, fun i => some ⟨i, 5⟩, true⟩
        [⟨1, 2⟩] none 1).toasts ≠ [] := by
  decide

/-- C8 (amended): every operation absorbs its own failures (the
operations are total functions of the embedded state — no exception
escapes) and every failure path fires a notification and leaves the
persisted storage unchanged; on a *fetch* failure the in-memory cart is
also unchanged, but on a *persistence-write* failure the cart keeps the
freshly computed value, because the state update precedes the write. -/
theorem C8_failures_absorbed (env : Env) (cart : List Product)
    (storage : Option String) (productId amount : Int) :
    ((cart.find? (fun item => item.id == productId) = none →
        env.fetchProduct productId = none →
        addProduct env cart storage productId = ⟨cart, storage, [addErrorMsg]⟩) ∧
     (∀ data, cart.find? (fun item => item.id == productId) = none →
        env.fetchProduct productId = some data →
        env.fetchStock data.id = none →
        addProduct env cart storage productId = ⟨cart, storage, [addErrorMsg]⟩) ∧
     (∀ pf, cart.find? (fun item => item.id == productId) = some pf →
        env.fetchStock pf.id = none →
        addProduct env cart storage productId = ⟨cart, storage, [addErrorMsg]⟩)) ∧
    (env.fetchStock productId = none →
      (updateProductAmount env cart storage productId amount).cart = cart ∧
      (updateProductAmount env cart storage productId amount).storage = storage ∧
      (updateProductAmount env cart storage productId amount).toasts ≠ []) ∧
    (env.persistFails = true →
      ((addProduct env cart storage productId).storage = storage ∧
        (addProduct env cart storage productId).toasts ≠ []) ∧
      ((removeProduct env cart storage productId).storage = storage ∧
        (removeProduct env cart storage productId).toasts ≠ []) ∧
      ((updateProductAmount env cart storage productId amount).storage = storage ∧
        (updateProductAmount env cart storage productId amount).toasts ≠ [])) :=
  ⟨⟨fun hfind hprod => addProduct_newFetchFail env cart storage productId hfind hprod,
    fun data hfind hprod hstock =>
      addProduct_newStockFail env cart storage productId data hfind hprod hstock,
    fun pf hfind hstock =>
      addProduct_existStockFail env cart storage productId pf hfind hstock⟩,
   fun h => updateProductAmount_stockFail env cart storage productId amount h,
   fun h => ⟨addProduct_persistFail env cart storage productId h,
    removeProduct_persistFail env cart storage productId h,
    updateProductAmount_persistFail env cart storage productId amount h⟩⟩

theorem C8_witness :
    addProduct ⟨fun _ => none, fun _ => none, false⟩ [] none 1
      = ⟨[], none, [addErrorMsg]⟩ ∧
    ((updateProductAmount ⟨fun _ => none, fun _ => none, false⟩
        [⟨1, 2⟩] none 1 1).cart = [⟨1, 2⟩] ∧
      (updateProductAmount ⟨fun _ => none, fun _ => none, false⟩
        [⟨1, 2⟩] none 1 1).storage = none ∧
      (updateProductAmount ⟨fun _ => none, fun _ => none, false⟩
        [⟨1, 2⟩] none 1 1).toasts ≠ []) ∧
    ((removeProduct ⟨fun _ => none, fun _ => none, true⟩ [⟨1, 2⟩] none 1).storage
        = none ∧
      (removeProduct ⟨fun _ => none, fun _ => none, true⟩
        [⟨1, 2⟩] none 1).toasts ≠ []) :=
  ⟨(C8_failures_absorbed ⟨fun _ => none, fun _ => none, false⟩ [] none 1 1).1.1
      rfl rfl,
   (C8_failures_absorbed ⟨fun _ => none, fun _ => none, false⟩ [⟨1, 2⟩] none 1 1).2.1
      rfl,
   ((C8_failures_absorbed ⟨fun _ => none, fun _ => none, true⟩
      [⟨1, 2⟩] none 1 1).2.2 rfl).2.1⟩

/-- C9 counterexample: with completely arbitrary product responses the
uniqueness invariant is *not* preserved — a product fetch that reports an
id different from the requested one (here `products/2` answering with id
1) makes `addProduct` append a duplicate id. -/
theorem C9_counterexample :
    CartUniq [(⟨1, 1⟩ : Product)] ∧ CartPos [(⟨1, 1⟩ : Product)] ∧
    ¬ CartUniq (addProduct ⟨fun _ => some ⟨1, 1⟩, fun _ => some ⟨1, 5⟩, false⟩
        [⟨1, 1⟩] none 2).cart := by
  decide

theorem cartInv_filter (cart : List Product) (p : Product → Bool)
    (huniq : CartUniq cart) (hpos : CartPos cart) :
    CartUniq (cart.filter p) ∧ CartPos (cart.filter p) :=
  ⟨List.Pairwise.sublist (List.filter_sublist cart) huniq,
   fun x hx => hpos x (List.mem_filter.mp hx).1⟩

theorem cartInv_map_update (cart : List Product) (pid : Int)
    (u : Product → Product)
    (hid : ∀ x, (u x).id = x.id)
    (hamt : ∀ x ∈ cart, (x.id == pid) = true → 1 ≤ (u x).amount)
    (huniq : CartUniq cart) (hpos : CartPos cart) :
    CartUniq (cart.map (fun item => if item.id == pid then u item else item)) ∧
    CartPos (cart.map (fun item => if item.id == pid then u item else item)) := by
  have hfid : ∀ x : Product,
      (if (x.id == pid) = true then u x else x).id = x.id := by
    intro x
    by_cases hx : (x.id == pid) = true
    · rw [if_pos hx]
      exact hid x
    · rw [if_neg hx]
  constructor
  · unfold CartUniq
    rw [List.pairwise_map]
    refine huniq.imp ?_
    intro a b hab
    rw [hfid a, hfid b]
    exact hab
  · intro x hx
    obtain ⟨a, ha, rfl⟩ := List.mem_map.mp hx
    by_cases hc : (a.id == pid) = true
    · rw [if_pos hc]
      exact hamt a ha hc
    · rw [if_neg hc]
      exact hpos a ha

theorem cartInv_append_new (cart : List Product) (data : Product)
    (hnotin : ∀ x ∈ cart, x.id ≠ data.id)
    (huniq : CartUniq cart) (hpos : CartPos cart) :
    CartUniq (cart ++ [{ data with amount := 1 }]) ∧
    CartPos (cart ++ [{ data with amount := 1 }]) := by
  constructor
  · unfold CartUniq
    rw [List.pairwise_append]
    refine ⟨huniq, by simp, ?_⟩
    intro a ha b hb
    have hb' : b = { data with amount := 1 } := by simpa using hb
    subst hb'
    exact hnotin a ha
  · intro x hx
    rcases List.mem_append.mp hx with hx | hx
    · exact hpos x hx
    · have hx' : x = { data with amount := 1 } := by simpa using hx
      subst hx'
      exact le_refl 1

theorem addProduct_preserves_inv (env : Env) (cart : List Product)
    (storage : Option String) (productId : Int)
    (hwf : ∀ i p, env.fetchProduct i = some p → p.id = i)
    (huniq : CartUniq cart) (hpos : CartPos cart) :
    CartUniq (addProduct env cart storage productId).cart ∧
    CartPos (addProduct env cart storage productId).cart := by
  unfold addProduct
  dsimp only
  cases hfind : cart.find? (fun item => item.id == productId) with
  | none =>
    dsimp only
    unfold handleAddNewProduct
    cases hp : env.fetchProduct productId with
    | none => exact ⟨huniq, hpos⟩
    | some data =>
      dsimp only
      cases hs : env.fetchStock data.id with
      | none => exact ⟨huniq, hpos⟩
      | some stock =>
        dsimp only
        have hdata : data.id = productId := hwf productId data hp
        have hnotin : ∀ x ∈ cart, x.id ≠ data.id := by
          intro x hx
          rw [hdata]
          have := List.find?_eq_none.mp hfind x hx
          simpa using this
        have hinv := cartInv_append_new cart data hnotin huniq hpos
        by_cases h0 : stock.amount = 0
        · rw [if_pos h0]
          exact ⟨huniq, hpos⟩
        · rw [if_neg h0]
          by_cases hpf : env.persistFails = true
          · rw [if_pos hpf]
            exact hinv
          · rw [if_neg hpf]
            exact hinv
  | some pf =>
    dsimp only
    unfold handleUpdateAmountOnExistingProduct
    cases hs : env.fetchStock pf.id with
    | none => exact ⟨huniq, hpos⟩
    | some stock =>
      dsimp only
      by_cases hover : pf.amount + 1 > stock.amount
      · rw [if_pos hover]
        exact ⟨huniq, hpos⟩
      · rw [if_neg hover]
        have hinv := cartInv_map_update cart pf.id
          (fun item => { item with amount := item.amount + 1 })
          (fun x => rfl)
          (fun x hx _ => by
            have h1 := hpos x hx
            show 1 ≤ x.amount + 1
            omega)
          huniq hpos
        by_cases hpf2 : env.persistFails = true
        · rw [if_pos hpf2]
          exact hinv
        · rw [if_neg hpf2]
          exact hinv

theorem removeProduct_preserves_inv (env : Env) (cart : List Product)
    (storage : Option String) (productId : Int)
    (huniq : CartUniq cart) (hpos : CartPos cart) :
    CartUniq (removeProduct env cart storage productId).cart ∧
    CartPos (removeProduct env cart storage productId).cart := by
  unfold removeProduct
  cases hfind : cart.find? (fun item => item.id == productId) with
  | none => exact ⟨huniq, hpos⟩
  | some pf =>
    dsimp only
    have hinv := cartInv_filter cart (fun item => !(item.id == productId)) huniq hpos
    by_cases hpf : env.persistFails = true
    · rw [if_pos hpf]
      exact hinv
    · rw [if_neg hpf]
      exact hinv

theorem updateProductAmount_preserves_inv (env : Env) (cart : List Product)
    (storage : Option String) (productId amount : Int)
    (huniq : CartUniq cart) (hpos : CartPos cart) :
    CartUniq (updateProductAmount env cart storage productId amount).cart ∧
    CartPos (updateProductAmount env cart storage productId amount).cart := by
  unfold updateProductAmount
  cases hfind : cart.find? (fun item => item.id == productId) with
  | none => exact ⟨huniq, hpos⟩
  | some pf =>
    dsimp only
    by_cases hguard : amount ≤ 0 ∨ pf.amount ≤ 0
    · rw [if_pos hguard]
      exact ⟨huniq, hpos⟩
    · rw [if_neg hguard]
      cases hs : env.fetchStock productId with
      | none => exact ⟨huniq, hpos⟩
      | some stock =>
        dsimp only
        by_cases hover : pf.amount + amount > stock.amount
        · rw [if_pos hover]
          exact ⟨huniq, hpos⟩
        · rw [if_neg hover]
          have hamt1 : (1 : Int) ≤ amount := by omega
          have hinv := cartInv_map_update cart pf.id
            (fun item => { item with amount := amount })
            (fun x => rfl)
            (fun x hx _ => hamt1)
            huniq hpos
          by_cases hpf2 : env.persistFails = true
          · rw [if_pos hpf2]
            exact hinv
          · rw [if_neg hpf2]
            exact hinv

/-- C9 (amended): provided every product fetch reports the id it was
asked for, all three operations preserve the cart invariants — entries
have pairwise-distinct ids and every quantity is ≥ 1 — for arbitrary
stock responses and failure modes. -/
theorem C9_operations_preserve_invariants (env : Env) (cart : List Product)
    (storage : Option String) (productId amount : Int)
    (hwf : ∀ i p, env.fetchProduct i = some p → p.id = i)
    (huniq : CartUniq cart) (hpos : CartPos cart) :
    (CartUniq (addProduct env cart storage productId).cart ∧
      CartPos (addProduct env cart storage productId).cart) ∧
    (CartUniq (removeProduct env cart storage productId).cart ∧
      CartPos (removeProduct env cart storage productId).cart) ∧
    (CartUniq (updateProductAmount env cart storage productId amount).cart ∧
      CartPos (updateProductAmount env cart storage productId amount).cart) :=
  ⟨addProduct_preserves_inv env cart storage productId hwf huniq hpos,
   removeProduct_preserves_inv env cart storage productId huniq hpos,
   updateProductAmount_preserves_inv env cart storage productId amount huniq hpos⟩

theorem C9_witness :
    CartUniq (addProduct ⟨fun i => some ⟨i, 3⟩, fun i => some ⟨i, 5⟩, false⟩
      [⟨1, 1⟩] none 2).cart ∧
    CartPos (addProduct ⟨fun i => some ⟨i, 3⟩, fun i => some ⟨i, 5⟩, false⟩
      [⟨1, 1⟩] none 2).cart :=
  (C9_operations_preserve_invariants ⟨fun i => some ⟨i, 3⟩, fun i => some ⟨i, 5⟩,
      false⟩ [⟨1, 1⟩] none 2 1
    (fun i p hp => by injection hp with h; rw [← h])
    (by decide) (by decide)).1
